import Mathlib

/-!
# Verification of the code-journal backend (Express CRUD server + React entry form)

Shallow embedding of `src/server/server.ts` (the five REST handlers over the
`entries` table) and of the client form component (`EntryForm`).

The server validates the `:entryId` path parameter with

  `Number.isNaN(entryId) || !Number.isInteger(+entryId) || Number(entryId) < 1`

so we model JavaScript's string-to-number conversion (`ToNumber` applied to a
string, the semantics of both `Number(s)` and the unary `+`) in two stages,
as the runtime does: the numeric literal is parsed to its exact mathematical
value, a scaled integer `m * 10 ^ exp`, and that value is then rounded to the
nearest IEEE-754 binary64 value (round-to-nearest, ties-to-even, overflow to
the infinities); `NaN` and the two infinities are separate constructors.
The rounding is observable in the validation: `"0.99999999999999999999"`
rounds to exactly 1 and is accepted, `"1e400"` overflows to Infinity and is
rejected.
-/

namespace CodeJournal

/-- An exact decimal value `m * 10 ^ exp`. -/
structure Dec where
  m : Int
  exp : Int
deriving Repr, DecidableEq

/-- Result of JavaScript `ToNumber` on a string, before binary64 rounding:
the exact mathematical value of the numeric literal, or NaN / the two
infinities. -/
inductive JsExact where
  | nan : JsExact
  | posInf : JsExact
  | negInf : JsExact
  | val : Dec → JsExact
deriving Repr, DecidableEq

/-- Whether the exact decimal value is an integer — the spec-side notion of a
non-"fractional" numeral (the program itself only ever sees the rounded
double). -/
def Dec.isInteger (d : Dec) : Bool :=
  if 0 ≤ d.exp then true
  else d.m % ((10 : Int) ^ (-d.exp).toNat) == 0

/-- JavaScript `StrWhiteSpace` characters (the ones this model covers:
ASCII whitespace, NBSP, BOM and the two Unicode line separators). -/
def isStrWhiteSpace (c : Char) : Bool :=
  c = ' ' || c = '\t' || c = '\n' || c = '\r' ||
  c = '\x0b' || c = '\x0c' || c = ' ' ||
  c = ' ' || c = ' ' || c = '﻿'

/-- Strip leading and trailing whitespace characters. -/
def trimStrWS (cs : List Char) : List Char :=
  ((cs.dropWhile isStrWhiteSpace).reverse.dropWhile isStrWhiteSpace).reverse

/-- Value of a (already checked) decimal digit string, most significant first. -/
def digitsToNat (ds : List Char) : Nat :=
  ds.foldl (fun a c => a * 10 + (c.toNat - 48)) 0

/-- A nonempty all-decimal-digit string, or `none`. -/
def parseDigitsNat (cs : List Char) : Option Nat :=
  if cs ≠ [] ∧ cs.all (·.isDigit) then some (digitsToNat cs) else none

/-- Exponent part after the `e`/`E`: optional sign then decimal digits. -/
def parseExpPart : List Char → Option Int
  | '+' :: rest => (parseDigitsNat rest).map (fun n => (n : Int))
  | '-' :: rest => (parseDigitsNat rest).map (fun n => -(n : Int))
  | rest => (parseDigitsNat rest).map (fun n => (n : Int))

/-- `StrUnsignedDecimalLiteral`: `digits [. digits] [exp] | . digits [exp]`,
consuming the whole input. -/
def parseUnsignedDec (cs : List Char) : Option Dec :=
  let ip := cs.takeWhile (·.isDigit)
  let rest1 := cs.dropWhile (·.isDigit)
  match rest1 with
  | [] => if ip = [] then none else some ⟨(digitsToNat ip : Int), 0⟩
  | '.' :: rest2 =>
      let fp := rest2.takeWhile (·.isDigit)
      let rest3 := rest2.dropWhile (·.isDigit)
      if ip = [] ∧ fp = [] then none
      else
        let mant : Int := ((digitsToNat ip * 10 ^ fp.length + digitsToNat fp : Nat) : Int)
        match rest3 with
        | [] => some ⟨mant, -(fp.length : Int)⟩
        | c :: rest4 =>
            if c = 'e' ∨ c = 'E' then
              (parseExpPart rest4).map (fun ex => ⟨mant, ex - fp.length⟩)
            else none
  | c :: rest2 =>
      if (c = 'e' ∨ c = 'E') ∧ ip ≠ [] then
        (parseExpPart rest2).map (fun ex => ⟨(digitsToNat ip : Int), ex⟩)
      else none

/-- Signless part of a decimal literal: `Infinity` or an unsigned decimal. -/
def parseAfterSign (cs : List Char) (neg : Bool) : JsExact :=
  if cs = "Infinity".toList then (if neg then .negInf else .posInf)
  else
    match parseUnsignedDec cs with
    | some d => .val (if neg then ⟨-d.m, d.exp⟩ else d)
    | none => .nan

/-- `StrDecimalLiteral`: optional sign, then `Infinity` or unsigned decimal. -/
def parseSignedDec : List Char → JsExact
  | '+' :: rest => parseAfterSign rest false
  | '-' :: rest => parseAfterSign rest true
  | rest => parseAfterSign rest false

/-- Hex digit value. -/
def hexDigitVal? (c : Char) : Option Nat :=
  if '0' ≤ c ∧ c ≤ '9' then some (c.toNat - 48)
  else if 'a' ≤ c ∧ c ≤ 'f' then some (c.toNat - 87)
  else if 'A' ≤ c ∧ c ≤ 'F' then some (c.toNat - 55)
  else none

/-- Octal digit value. -/
def octDigitVal? (c : Char) : Option Nat :=
  if '0' ≤ c ∧ c ≤ '7' then some (c.toNat - 48) else none

/-- Binary digit value. -/
def binDigitVal? (c : Char) : Option Nat :=
  if c = '0' ∨ c = '1' then some (c.toNat - 48) else none

/-- Nonempty digit string in the given radix, or `none`. -/
def parseRadixDigits (radix : Nat) (digVal : Char → Option Nat) : List Char → Option Nat
  | [] => none
  | cs => cs.foldl (fun acc c =>
      match acc, digVal c with
      | some a, some v => some (a * radix + v)
      | _, _ => none) (some 0)

/-- `StrNumericLiteral` on trimmed input: empty string is 0; `0x`/`0o`/`0b`
literals carry no sign; otherwise a signed decimal literal. -/
def parseStrNumericLiteral (cs : List Char) : JsExact :=
  match cs with
  | [] => .val ⟨0, 0⟩
  | '0' :: c :: rest =>
      if c = 'x' ∨ c = 'X' then
        match parseRadixDigits 16 hexDigitVal? rest with
        | some n => .val ⟨(n : Int), 0⟩
        | none => .nan
      else if c = 'o' ∨ c = 'O' then
        match parseRadixDigits 8 octDigitVal? rest with
        | some n => .val ⟨(n : Int), 0⟩
        | none => .nan
      else if c = 'b' ∨ c = 'B' then
        match parseRadixDigits 2 binDigitVal? rest with
        | some n => .val ⟨(n : Int), 0⟩
        | none => .nan
      else parseSignedDec ('0' :: c :: rest)
  | other => parseSignedDec other

/-- JavaScript `Number(s)` / unary `+s`, exact stage: trim, then parse the
literal to its exact mathematical value. -/
def jsToNumberExact (s : String) : JsExact :=
  parseStrNumericLiteral (trimStrWS s.toList)

/-- A finite IEEE-754 binary64 (double) value `m * 2 ^ exp2`, `m` the signed
mantissa produced by rounding (`|m| ≤ 2 ^ 53`). -/
structure F64 where
  m : Int
  exp2 : Int
deriving Repr, DecidableEq

/-- Result of JavaScript `ToNumber` on a string: a double, NaN or ±Infinity. -/
inductive JsNum where
  | nan : JsNum
  | posInf : JsNum
  | negInf : JsNum
  | val : F64 → JsNum
deriving Repr, DecidableEq

/-- `Number.isInteger` on a finite double (exact: a double is a dyadic
rational, integral exactly when the denominator divides out). -/
def F64.isInteger (x : F64) : Bool :=
  if 0 ≤ x.exp2 then true
  else x.m % ((2 : Int) ^ (-x.exp2).toNat) == 0

/-- The comparison `value < 1` on a finite double. -/
def F64.ltOne (x : F64) : Bool :=
  if 0 ≤ x.exp2 then decide (x.m * (2 : Int) ^ x.exp2.toNat < 1)
  else decide (x.m < (2 : Int) ^ (-x.exp2).toNat)

/-- The integer a finite double stands for (exact when `isInteger`; used only
then). -/
def F64.toInt (x : F64) : Int :=
  if 0 ≤ x.exp2 then x.m * (2 : Int) ^ x.exp2.toNat
  else Int.ediv x.m ((2 : Int) ^ (-x.exp2).toNat)

/-- `bitLen n` is the least `L` with `n < 2 ^ L`.  The first argument is
fuel: the halving depth is at most `n`, so `bitLen` runs it with fuel `n`. -/
def bitLenAux : Nat → Nat → Nat
  | 0, _ => 0
  | fuel + 1, n => if n = 0 then 0 else bitLenAux fuel (n / 2) + 1

/-- Bit length of a natural number. -/
def bitLen (n : Nat) : Nat := bitLenAux n n

/-- Round an exact decimal value `m * 10 ^ exp` to the nearest IEEE-754
binary64 value (round-to-nearest, ties-to-even), overflowing to the
infinities: the double `Number(s)` actually yields.  The value is scaled by
the ulp `2 ^ U` (`U = E2 - 52` for normals, `-1074` for subnormals, `E2` the
floor of the base-2 logarithm), the scaled value is rounded to an integer
mantissa `k` half-to-even, and a rounded magnitude `≥ 2 ^ 1024` overflows.
Two magnitude short-cuts (certain overflow for decimal exponent `≥ 1024`,
certain underflow to zero when `bitLen |m| + 3 * exp ≤ -1075`, sound since
`10 ^ e < 2 ^ (3 * e)` for `e < 0`) only keep intermediate powers small;
inside those bounds the exact computation runs. -/
def roundF64 (d : Dec) : JsNum :=
  if d.m = 0 then .val ⟨0, 0⟩
  else
    let sign := d.m < 0
    let a0 := d.m.natAbs
    if 1024 ≤ d.exp then (if sign then .negInf else .posInf)
    else if (bitLen a0 : Int) + 3 * d.exp ≤ -1075 then .val ⟨0, 0⟩
    else
      let A := if 0 ≤ d.exp then a0 * 10 ^ d.exp.toNat else a0
      let B := if 0 ≤ d.exp then 1 else 10 ^ (-d.exp).toNat
      let c : Int := (bitLen A : Int) - (bitLen B : Int)
      let ge : Bool :=
        if 0 ≤ c then decide (B * 2 ^ c.toNat ≤ A) else decide (B ≤ A * 2 ^ (-c).toNat)
      let E2 : Int := if ge then c else c - 1
      let U : Int := max (E2 - 52) (-1074)
      let X := if 0 ≤ U then A else A * 2 ^ (-U).toNat
      let Y := if 0 ≤ U then B * 2 ^ U.toNat else B
      let q0 := X / Y
      let r := X % Y
      let k := if 2 * r < Y then q0
        else if Y < 2 * r then q0 + 1
        else if q0 % 2 = 0 then q0 else q0 + 1
      if 0 ≤ U ∧ 2 ^ 1024 ≤ k * 2 ^ U.toNat then
        (if sign then .negInf else .posInf)
      else .val ⟨(if sign then -(k : Int) else (k : Int)), U⟩

/-- JavaScript `Number(s)` / unary `+s` on a string: trim, parse the exact
literal value, round it to binary64. -/
def jsToNumber (s : String) : JsNum :=
  match jsToNumberExact s with
  | .nan => .nan
  | .posInf => .posInf
  | .negInf => .negInf
  | .val d => roundF64 d

/-- `Number.isNaN(x)` where `x` is a string: `Number.isNaN` does not coerce,
and a string is never the NaN value, so this is constantly `false`. -/
def jsNumberIsNaNOnString (_s : String) : Bool := false

/-- `Number.isInteger(x)`: false on NaN and the infinities. -/
def jsIsInteger : JsNum → Bool
  | .nan => false
  | .posInf => false
  | .negInf => false
  | .val x => x.isInteger

/-- The comparison `x < 1`: false on NaN (comparisons with NaN are false),
true on -Infinity, false on +Infinity. -/
def jsLtOne : JsNum → Bool
  | .nan => false
  | .posInf => false
  | .negInf => true
  | .val x => x.ltOne

/-- The entryId validation shared (textually identical) by the GET, PUT and
DELETE handlers:
`!(Number.isNaN(entryId) || !Number.isInteger(+entryId) || Number(entryId) < 1)`. -/
def validEntryId (s : String) : Bool :=
  !(jsNumberIsNaNOnString s || !jsIsInteger (jsToNumber s) || jsLtOne (jsToNumber s))

/-- `Number(entryId)` as the integer the GET and PUT handlers bind into their
SQL statement (meaningful only when the validation passed). -/
def entryIdInt (s : String) : Int :=
  match jsToNumber s with
  | .val x => x.toInt
  | _ => 0

example : jsToNumberExact "1.0" = .val ⟨10, -1⟩ := by decide
example : jsToNumber "1.0" = .val ⟨4503599627370496, -52⟩ := by decide
example : validEntryId "1.0" = true := by decide
example : validEntryId " 7 " = true := by decide
example : validEntryId "0x10" = true := by decide
example : validEntryId "2e3" = true := by decide
example : validEntryId "1.5" = false := by decide
example : validEntryId "abc" = false := by decide
example : validEntryId "0" = false := by decide
example : validEntryId "-3" = false := by decide
example : validEntryId "" = false := by decide
example : validEntryId "Infinity" = false := by decide
example : entryIdInt "1.0" = 1 := by decide
example : entryIdInt "2e3" = 2000 := by decide
example : entryIdInt "0x10" = 16 := by decide
example : entryIdInt " 7 " = 7 := by decide
example : validEntryId "0.99999999999999999999" = true := by decide
example : entryIdInt "0.99999999999999999999" = 1 := by decide
example : validEntryId "1e-400" = false := by decide
set_option maxRecDepth 8000 in
example : validEntryId "1e400" = false := by decide
set_option maxRecDepth 8000 in
example : jsToNumber "1e400" = .posInf := by decide

/-!
## The store

One relational table `entries("entryId" serial primary key, title, notes,
"photoUrl")`.  A store is the list of rows plus the serial sequence's next
value; each SQL statement of the server is modelled by one function,
returning the `returning *` row list together with the new store.
-/

/-- A row of the `entries` table (and the JSON entity the server returns). -/
structure Entry where
  entryId : Nat
  title : String
  notes : String
  photoUrl : String
deriving Repr, DecidableEq

/-- The `entries` table plus the serial sequence for `"entryId"`. -/
structure Store where
  rows : List Entry
  nextId : Nat
deriving Repr, DecidableEq

/-- The serial-column invariant: every present id is below the sequence value. -/
def Store.wf (st : Store) : Bool :=
  st.rows.all (fun e => e.entryId < st.nextId)

/-- `select * from entries where "entryId" = $1`. -/
def selectById (st : Store) (id : Int) : List Entry :=
  st.rows.filter (fun e => (e.entryId : Int) == id)

/-- `insert into entries ("title", "notes", "photoUrl") values ($1,$2,$3)
returning *`: the store generates the id. -/
def insertReturning (st : Store) (t n p : String) : List Entry × Store :=
  let e : Entry := ⟨st.nextId, t, n, p⟩
  ([e], ⟨st.rows ++ [e], st.nextId + 1⟩)

/-- `update entries set "title"=$1, "notes"=$2, "photoUrl"=$3 where
"entryId" = $4 returning *`. -/
def updateReturning (st : Store) (id : Int) (t n p : String) : List Entry × Store :=
  ((st.rows.filter (fun e => (e.entryId : Int) == id)).map
      (fun e => { e with title := t, notes := n, photoUrl := p }),
   ⟨st.rows.map (fun e =>
      if (e.entryId : Int) == id then { e with title := t, notes := n, photoUrl := p }
      else e), st.nextId⟩)

/-- `delete from entries where "entryId" = $1 returning *`. -/
def deleteReturning (st : Store) (id : Int) : List Entry × Store :=
  (st.rows.filter (fun e => (e.entryId : Int) == id),
   ⟨st.rows.filter (fun e => !((e.entryId : Int) == id)), st.nextId⟩)

/-- PostgreSQL `int4in` (the cast the DELETE handler relies on, since it binds
the raw path string): optional surrounding ASCII whitespace, optional sign,
one or more decimal digits, and the value must lie in the int4 range
`-2147483648 .. 2147483647` (out of range is an input error, like bad
syntax). -/
def pgIntOfString (s : String) : Option Int :=
  let cs := (s.toList.dropWhile (·.isWhitespace)).reverse.dropWhile (·.isWhitespace) |>.reverse
  let inRange : Int → Option Int := fun v =>
    if -2147483648 ≤ v ∧ v ≤ 2147483647 then some v else none
  match cs with
  | '+' :: ds => (parseDigitsNat ds).bind (fun n => inRange (n : Int))
  | '-' :: ds => (parseDigitsNat ds).bind (fun n => inRange (-(n : Int)))
  | ds => (parseDigitsNat ds).bind (fun n => inRange (n : Int))

/-!
## The request handlers

Each handler is a pure function of its inputs and the store.  `status`/`body`
are the HTTP response (`body = none` for the error responses produced by
`ClientError` / the error middleware), `store` the table afterwards, and
`queries` how many SQL statements the handler issued.
-/

/-- A handler's observable outcome. -/
structure HandlerOut where
  status : Nat
  body : Option Entry
  store : Store
  queries : Nat
deriving Repr, DecidableEq

/-- Truthiness test `!x` for a destructured JSON string field: a missing key
destructures to `undefined` (falsy); the empty string is falsy. -/
def falsy : Option String → Bool
  | none => true
  | some s => s.isEmpty

/-- The JSON request body, as the handlers destructure it
(`const { title, notes, photoUrl } = req.body`): any `entryId` key a client
sends is simply never read. -/
structure ReqBody where
  entryId : Option Nat := none
  title : Option String
  notes : Option String
  photoUrl : Option String
deriving Repr, DecidableEq

/-- `!title || !notes || !photoUrl`. -/
def anyFieldMissing (b : ReqBody) : Bool :=
  falsy b.title || falsy b.notes || falsy b.photoUrl

/-- `GET /api/entries/:entryId`. -/
def getEntryHandler (entryId : String) (st : Store) : HandlerOut :=
  if jsNumberIsNaNOnString entryId || !jsIsInteger (jsToNumber entryId) ||
      jsLtOne (jsToNumber entryId) then
    ⟨400, none, st, 0⟩
  else
    match (selectById st (entryIdInt entryId)).head? with
    | none => ⟨404, none, st, 1⟩
    | some e => ⟨200, some e, st, 1⟩

/-- `POST /api/entries`.  The `if (!entry)` 404 branch of the source is kept;
it is unreachable because a single-row insert always returns its row. -/
def postEntryHandler (b : ReqBody) (st : Store) : HandlerOut :=
  if falsy b.title || falsy b.notes || falsy b.photoUrl then
    ⟨400, none, st, 0⟩
  else
    let r := insertReturning st (b.title.getD "") (b.notes.getD "") (b.photoUrl.getD "")
    match r.1.head? with
    | none => ⟨404, none, r.2, 1⟩
    | some e => ⟨201, some e, r.2, 1⟩

/-- `PUT /api/entries/:entryId`: id validation, then field validation, then
the update statement; 404 when no row matched; 201 (as in the source) on
success. -/
def putEntryHandler (entryId : String) (b : ReqBody) (st : Store) : HandlerOut :=
  if jsNumberIsNaNOnString entryId || !jsIsInteger (jsToNumber entryId) ||
      jsLtOne (jsToNumber entryId) then
    ⟨400, none, st, 0⟩
  else if falsy b.title || falsy b.notes || falsy b.photoUrl then
    ⟨400, none, st, 0⟩
  else
    let r := updateReturning st (entryIdInt entryId) (b.title.getD "")
      (b.notes.getD "") (b.photoUrl.getD "")
    match r.1.head? with
    | none => ⟨404, none, r.2, 1⟩
    | some e => ⟨201, some e, r.2, 1⟩

/-- `DELETE /api/entries/:entryId`.  Unlike GET/PUT, the source binds the raw
path string (`const params = [entryId]`), so the store itself parses it via
`int4in`; a string that passed the JS validation but is not int4 syntax (for
example `2e3`) makes the statement fail, which the error middleware reports
as a generic 500. -/
def deleteEntryHandler (entryId : String) (st : Store) : HandlerOut :=
  if jsNumberIsNaNOnString entryId || !jsIsInteger (jsToNumber entryId) ||
      jsLtOne (jsToNumber entryId) then
    ⟨400, none, st, 0⟩
  else
    match pgIntOfString entryId with
    | none => ⟨500, none, st, 1⟩
    | some id =>
        let r := deleteReturning st id
        match r.1.head? with
        | none => ⟨404, none, r.2, 1⟩
        | some e => ⟨200, some e, r.2, 1⟩

/-!
## The client form component (`EntryForm`)

`handleSubmit` reads the form fields, then calls `updateEntry({...entry,
...newEntry})` when editing and `addEntry(newEntry)` otherwise, and calls
`navigate('/')` immediately: the async create/update call is not awaited, so
navigation is unconditional, and a rejection of that call is never caught by
the component (no `setError`), i.e. never surfaced in the form UI.
-/

/-- The client-side entry value (`entryId` optional: absent on a new form). -/
structure ClientEntry where
  entryId : Option Nat
  title : String
  notes : String
  photoUrl : String
deriving Repr, DecidableEq

/-- The network call `handleSubmit` fires. -/
inductive ApiCall where
  | createCall : ClientEntry → ApiCall
  | updateCall : String → ClientEntry → ApiCall
deriving Repr, DecidableEq

/-- What a submit does, observably: which call it fires, where it navigates,
and whether any failure of the call is surfaced in the form UI. -/
structure SubmitOutcome where
  call : ApiCall
  navigatedTo : String
  errorSurfaced : Bool
deriving Repr, DecidableEq

/-- `isEditing = entryId && entryId !== 'new'` on the route parameter
(the empty string is falsy). -/
def isEditingParam : Option String → Bool
  | none => false
  | some p => !p.isEmpty && p != "new"

/-- `handleSubmit`: `routeParam` is the `:entryId` route parameter, `loaded`
the entry state fetched on mount, and `t`/`n`/`p` the form field values.
`{...entry, ...newEntry}` keeps `entryId` from the loaded entry and takes all
three text fields from the form. -/
def handleSubmit (routeParam : Option String) (loaded : Option ClientEntry)
    (t n p : String) : SubmitOutcome :=
  if isEditingParam routeParam then
    { call := .updateCall (routeParam.getD "") ⟨loaded.bind (·.entryId), t, n, p⟩,
      navigatedTo := "/", errorSurfaced := false }
  else
    { call := .createCall ⟨none, t, n, p⟩, navigatedTo := "/", errorSurfaced := false }

/-!
## Helper lemmas

The booleans `F64.isInteger` / `F64.ltOne` agree with the rational value
`F64.toRat` of the double, giving the semantic reading of the validation
predicate; `Dec.isInteger` agrees likewise with `Dec.toRat` for the exact
(pre-rounding) literal value.
-/

theorem filter_map_preserve (f : Entry → Entry) (q : Entry → Bool)
    (hq : ∀ e, q (f e) = q e) (l : List Entry) :
    (l.map f).filter q = (l.filter q).map f := by
  induction l with
  | nil => rfl
  | cons a l ih =>
      simp only [List.map_cons, List.filter_cons, hq a]
      cases q a <;> simp [ih]

theorem filter_after_filter_not (q : Entry → Bool) (l : List Entry) :
    (l.filter (fun e => !(q e))).filter q = [] := by
  induction l with
  | nil => rfl
  | cons a l ih =>
      cases hqa : q a <;> simp [List.filter_cons, hqa, ih]

theorem isEmpty_false_of_ne (s : String) (h : s ≠ "") : s.isEmpty = false := by
  cases he : s.isEmpty
  · rfl
  · exact absurd ((String.isEmpty_iff s).mp he) h

theorem head?_filter_prop (q : Entry → Bool) (l : List Entry) (e : Entry)
    (h : (l.filter q).head? = some e) : q e = true := by
  have hmem : e ∈ l.filter q := by
    cases hl : l.filter q with
    | nil => rw [hl] at h; cases h
    | cons a as =>
        rw [hl] at h
        have ha : a = e := by simpa using h
        rw [← ha]
        exact List.mem_cons_self a as
  exact (List.mem_filter.mp hmem).2

theorem map_entryId_of_preserve (g : Entry → Entry)
    (hg : ∀ e, (g e).entryId = e.entryId) (l : List Entry) :
    (l.map g).map (fun e => e.entryId) = l.map (fun e => e.entryId) := by
  induction l with
  | nil => rfl
  | cons a l ih => simp [hg, ih]

theorem map_id_on_filter (g : Entry → Entry) (q2 : Entry → Bool)
    (hg : ∀ e, q2 e = true → g e = e) (l : List Entry) :
    (l.filter q2).map g = l.filter q2 := by
  induction l with
  | nil => rfl
  | cons a l ih =>
      cases hq : q2 a
      · simp [List.filter_cons, hq, ih]
      · simp [List.filter_cons, hq, ih, hg a hq]

theorem gate_eq_false_of_valid (s : String) (hs : validEntryId s = true) :
    (jsNumberIsNaNOnString s || !jsIsInteger (jsToNumber s) ||
      jsLtOne (jsToNumber s)) = false := by
  unfold validEntryId at hs
  rwa [Bool.not_eq_true'] at hs

/-!
## The claims
-/

/-- C2: for every create or update request missing any of title/notes/photoUrl
(absent or empty), the server responds 400 and performs no write: the store is
unchanged and no query is issued. -/
theorem missing_field_rejected_without_write (b : ReqBody) (st : Store)
    (h : anyFieldMissing b = true) :
    postEntryHandler b st = ⟨400, none, st, 0⟩ ∧
    (∀ s : String, (putEntryHandler s b st).status = 400 ∧
      (putEntryHandler s b st).store = st ∧ (putEntryHandler s b st).queries = 0) := by
  have hb : (falsy b.title || falsy b.notes || falsy b.photoUrl) = true := h
  refine ⟨by simp [postEntryHandler, hb], fun s => ?_⟩
  by_cases hv : (jsNumberIsNaNOnString s || !jsIsInteger (jsToNumber s) ||
      jsLtOne (jsToNumber s)) = true
  · simp [putEntryHandler, hv]
  · have hv2 : (jsNumberIsNaNOnString s || !jsIsInteger (jsToNumber s) ||
        jsLtOne (jsToNumber s)) = false := by simpa using hv
    simp [putEntryHandler, hv2, hb]

theorem missing_field_rejected_without_write_witness :
    postEntryHandler ⟨none, none, some "n", some "p"⟩ ⟨[], 1⟩ =
      ⟨400, none, ⟨[], 1⟩, 0⟩ ∧
    (∀ s : String,
      (putEntryHandler s ⟨none, none, some "n", some "p"⟩ ⟨[], 1⟩).status = 400 ∧
      (putEntryHandler s ⟨none, none, some "n", some "p"⟩ ⟨[], 1⟩).store = ⟨[], 1⟩ ∧
      (putEntryHandler s ⟨none, none, some "n", some "p"⟩ ⟨[], 1⟩).queries = 0) :=
  missing_field_rejected_without_write ⟨none, none, some "n", some "p"⟩ ⟨[], 1⟩ (by decide)

/-- C3: for every create request with all three fields present and non-empty,
the server responds 201, the body carries the store-generated entryId (the
serial sequence value) and exactly the submitted title, notes and photoUrl,
and the row is appended to the table. -/
theorem create_valid_returns_created_entry (b : ReqBody) (st : Store)
    (t n p : String)
    (ht : b.title = some t) (hn : b.notes = some n) (hp : b.photoUrl = some p)
    (ht2 : t ≠ "") (hn2 : n ≠ "") (hp2 : p ≠ "") :
    postEntryHandler b st =
      ⟨201, some ⟨st.nextId, t, n, p⟩,
        ⟨st.rows ++ [⟨st.nextId, t, n, p⟩], st.nextId + 1⟩, 1⟩ := by
  simp [postEntryHandler, insertReturning, ht, hn, hp, falsy,
    isEmpty_false_of_ne t ht2, isEmpty_false_of_ne n hn2, isEmpty_false_of_ne p hp2]

theorem create_valid_returns_created_entry_witness :
    postEntryHandler ⟨none, some "Trip", some "Fun", some "http://x/y.jpg"⟩ ⟨[], 1⟩ =
      ⟨201, some ⟨1, "Trip", "Fun", "http://x/y.jpg"⟩,
        ⟨[⟨1, "Trip", "Fun", "http://x/y.jpg"⟩], 2⟩, 1⟩ :=
  create_valid_returns_created_entry ⟨none, some "Trip", some "Fun", some "http://x/y.jpg"⟩
    ⟨[], 1⟩ "Trip" "Fun" "http://x/y.jpg" rfl rfl rfl
    (by decide) (by decide) (by decide)

/-- C7: the create operation responds only 201 or 400, never 404: the insert
with `returning *` always yields the inserted row, so the handler's
`if (!entry)` branch is unreachable. -/
theorem create_never_404 (b : ReqBody) (st : Store) :
    (postEntryHandler b st).status = 201 ∨ (postEntryHandler b st).status = 400 := by
  by_cases hb : (falsy b.title || falsy b.notes || falsy b.photoUrl) = true
  · right
    simp [postEntryHandler, hb]
  · left
    have hb2 : (falsy b.title || falsy b.notes || falsy b.photoUrl) = false := by
      simpa using hb
    simp [postEntryHandler, hb2, insertReturning]

/-- C4: round-trip — when a create succeeds and returns entry `e`, a get on
any path string whose validated numeric value is `e.entryId` (in particular
the decimal rendering of the returned id) responds 200 with that same entry,
unchanged.  `st.wf` is the serial-column invariant: present ids are below the
sequence value. -/
theorem create_then_get_roundtrip (b : ReqBody) (st : Store) (e : Entry) (s : String)
    (hwf : st.wf = true)
    (hbody : (postEntryHandler b st).body = some e)
    (hs : validEntryId s = true)
    (hid : entryIdInt s = (e.entryId : Int)) :
    getEntryHandler s (postEntryHandler b st).store =
      ⟨200, some e, (postEntryHandler b st).store, 1⟩ := by
  by_cases hb : (falsy b.title || falsy b.notes || falsy b.photoUrl) = true
  · rw [postEntryHandler] at hbody
    rw [if_pos hb] at hbody
    cases hbody
  · have hb2 : (falsy b.title || falsy b.notes || falsy b.photoUrl) = false := by
      simpa using hb
    have hpost : postEntryHandler b st =
        ⟨201, some ⟨st.nextId, b.title.getD "", b.notes.getD "", b.photoUrl.getD ""⟩,
          ⟨st.rows ++ [⟨st.nextId, b.title.getD "", b.notes.getD "", b.photoUrl.getD ""⟩],
            st.nextId + 1⟩, 1⟩ := by
      simp [postEntryHandler, insertReturning, hb2]
    rw [hpost] at hbody
    have he : (⟨st.nextId, b.title.getD "", b.notes.getD "", b.photoUrl.getD ""⟩ : Entry)
        = e := Option.some.inj hbody
    rw [hpost]
    have hgate := gate_eq_false_of_valid s hs
    have hnext : e.entryId = st.nextId := by rw [← he]
    have hsel : selectById
        ⟨st.rows ++ [⟨st.nextId, b.title.getD "", b.notes.getD "", b.photoUrl.getD ""⟩],
          st.nextId + 1⟩ (entryIdInt s) = [e] := by
      rw [selectById]
      rw [List.filter_append]
      have h1 : st.rows.filter (fun r => ((r.entryId : Int) == entryIdInt s)) = [] := by
        rw [List.filter_eq_nil_iff]
        intro r hr
        have hlt : r.entryId < st.nextId := by
          have hall := (List.all_eq_true.mp hwf) r hr
          exact of_decide_eq_true hall
        rw [hid]
        simp only [beq_iff_eq]
        rw [hnext]
        omega
      have h2 : List.filter (fun r => ((r.entryId : Int) == entryIdInt s))
          [(⟨st.nextId, b.title.getD "", b.notes.getD "", b.photoUrl.getD ""⟩ : Entry)]
          = [e] := by
        rw [he, hid]
        simp
      rw [h1, h2]
      rfl
    rw [getEntryHandler]
    rw [if_neg (by simp [hgate])]
    rw [hsel]
    rfl

theorem create_then_get_roundtrip_witness :
    getEntryHandler "1"
        (postEntryHandler ⟨none, some "t", some "n", some "p"⟩ ⟨[], 1⟩).store =
      ⟨200, some ⟨1, "t", "n", "p"⟩,
        (postEntryHandler ⟨none, some "t", some "n", some "p"⟩ ⟨[], 1⟩).store, 1⟩ :=
  create_then_get_roundtrip ⟨none, some "t", some "n", some "p"⟩ ⟨[], 1⟩
    ⟨1, "t", "n", "p"⟩ "1" (by decide) (by decide) (by decide) (by decide)

/-- C5: updating an existing entry with valid non-empty fields responds 201
with the updated entry, all three text fields fully replaced by the submitted
values (the id kept), and a subsequent get returns exactly those new values —
never a merge with the old ones. -/
theorem update_replaces_all_fields (s : String) (b : ReqBody) (st : Store)
    (e0 : Entry) (t n p : String)
    (hs : validEntryId s = true)
    (ht : b.title = some t) (hn : b.notes = some n) (hp : b.photoUrl = some p)
    (ht2 : t ≠ "") (hn2 : n ≠ "") (hp2 : p ≠ "")
    (hfound : (selectById st (entryIdInt s)).head? = some e0) :
    (putEntryHandler s b st).status = 201 ∧
    (putEntryHandler s b st).body = some ⟨e0.entryId, t, n, p⟩ ∧
    getEntryHandler s (putEntryHandler s b st).store =
      ⟨200, some ⟨e0.entryId, t, n, p⟩, (putEntryHandler s b st).store, 1⟩ := by
  have hgate := gate_eq_false_of_valid s hs
  have hb2 : (falsy b.title || falsy b.notes || falsy b.photoUrl) = false := by
    simp [ht, hn, hp, falsy, isEmpty_false_of_ne t ht2, isEmpty_false_of_ne n hn2,
      isEmpty_false_of_ne p hp2]
  have hq0 : (fun r => ((r.entryId : Int) == entryIdInt s)) e0 = true :=
    head?_filter_prop _ st.rows e0 hfound
  have hput : putEntryHandler s b st =
      ⟨201, some ⟨e0.entryId, t, n, p⟩,
        ⟨st.rows.map (fun e =>
          if (e.entryId : Int) == entryIdInt s then
            { e with title := t, notes := n, photoUrl := p } else e), st.nextId⟩, 1⟩ := by
    rw [putEntryHandler, if_neg (by simp [hgate]), if_neg (by simp [hb2])]
    rw [ht, hn, hp]
    simp only [Option.getD_some, updateReturning]
    rw [List.head?_map]
    rw [show st.rows.filter (fun e => ((e.entryId : Int) == entryIdInt s)) =
      selectById st (entryIdInt s) from rfl]
    rw [hfound]
    rfl
  rw [hput]
  refine ⟨rfl, rfl, ?_⟩
  have hpres : ∀ e : Entry,
      (fun r => ((r.entryId : Int) == entryIdInt s))
        ((fun e => if (e.entryId : Int) == entryIdInt s then
          { e with title := t, notes := n, photoUrl := p } else e) e) =
      (fun r => ((r.entryId : Int) == entryIdInt s)) e := by
    intro e
    by_cases hqe : ((e.entryId : Int) == entryIdInt s) = true
    · simp only [if_pos hqe]
    · simp only [if_neg hqe]
  have hsel : selectById
      ⟨st.rows.map (fun e =>
        if (e.entryId : Int) == entryIdInt s then
          { e with title := t, notes := n, photoUrl := p } else e), st.nextId⟩
      (entryIdInt s) =
      (selectById st (entryIdInt s)).map (fun e =>
        if (e.entryId : Int) == entryIdInt s then
          { e with title := t, notes := n, photoUrl := p } else e) := by
    rw [selectById]
    exact filter_map_preserve _ _ hpres st.rows
  rw [getEntryHandler, if_neg (by simp [hgate]), hsel, List.head?_map, hfound]
  simp only [Option.map_some']
  rw [if_pos hq0]

theorem update_replaces_all_fields_witness :
    (putEntryHandler "1" ⟨none, some "t2", some "n2", some "p2"⟩
      ⟨[⟨1, "t", "n", "p"⟩], 2⟩).status = 201 ∧
    (putEntryHandler "1" ⟨none, some "t2", some "n2", some "p2"⟩
      ⟨[⟨1, "t", "n", "p"⟩], 2⟩).body = some ⟨1, "t2", "n2", "p2"⟩ ∧
    getEntryHandler "1" (putEntryHandler "1" ⟨none, some "t2", some "n2", some "p2"⟩
      ⟨[⟨1, "t", "n", "p"⟩], 2⟩).store =
      ⟨200, some ⟨1, "t2", "n2", "p2"⟩,
        (putEntryHandler "1" ⟨none, some "t2", some "n2", some "p2"⟩
          ⟨[⟨1, "t", "n", "p"⟩], 2⟩).store, 1⟩ :=
  update_replaces_all_fields "1" ⟨none, some "t2", some "n2", some "p2"⟩
    ⟨[⟨1, "t", "n", "p"⟩], 2⟩ ⟨1, "t", "n", "p"⟩ "t2" "n2" "p2"
    (by decide) rfl rfl rfl (by decide) (by decide) (by decide) (by decide)

/-- C6: deleting an existing entry responds 200 with the deleted entry (the
first row matching the id), removes every row with that id, and a subsequent
get on the same path string responds 404.  `hpg` records that the store's
`int4in` parse of the raw path string (which the DELETE handler binds, unlike
GET/PUT) agrees with the validated numeric value — true in particular of the
canonical decimal rendering of an existing id. -/
theorem delete_then_get_404 (s : String) (st : Store) (e : Entry)
    (hs : validEntryId s = true)
    (hpg : pgIntOfString s = some (entryIdInt s))
    (hfound : (selectById st (entryIdInt s)).head? = some e) :
    (deleteEntryHandler s st).status = 200 ∧
    (deleteEntryHandler s st).body = some e ∧
    (deleteEntryHandler s st).store =
      ⟨st.rows.filter (fun r => !((r.entryId : Int) == entryIdInt s)), st.nextId⟩ ∧
    getEntryHandler s (deleteEntryHandler s st).store =
      ⟨404, none, (deleteEntryHandler s st).store, 1⟩ := by
  have hgate := gate_eq_false_of_valid s hs
  have hdel : deleteEntryHandler s st =
      ⟨200, some e,
        ⟨st.rows.filter (fun r => !((r.entryId : Int) == entryIdInt s)), st.nextId⟩, 1⟩ := by
    rw [deleteEntryHandler, if_neg (by simp [hgate]), hpg]
    simp only [deleteReturning]
    rw [show st.rows.filter (fun r => ((r.entryId : Int) == entryIdInt s)) =
      selectById st (entryIdInt s) from rfl]
    rw [hfound]
  rw [hdel]
  refine ⟨rfl, rfl, rfl, ?_⟩
  have hsel : selectById
      ⟨st.rows.filter (fun r => !((r.entryId : Int) == entryIdInt s)), st.nextId⟩
      (entryIdInt s) = [] := by
    rw [selectById]
    exact filter_after_filter_not _ st.rows
  rw [getEntryHandler, if_neg (by simp [hgate]), hsel]
  rfl

theorem delete_then_get_404_witness :
    (deleteEntryHandler "1" ⟨[⟨1, "t", "n", "p"⟩], 2⟩).status = 200 ∧
    (deleteEntryHandler "1" ⟨[⟨1, "t", "n", "p"⟩], 2⟩).body = some ⟨1, "t", "n", "p"⟩ ∧
    (deleteEntryHandler "1" ⟨[⟨1, "t", "n", "p"⟩], 2⟩).store =
      ⟨([⟨1, "t", "n", "p"⟩] : List Entry).filter
        (fun r => !((r.entryId : Int) == entryIdInt "1")), 2⟩ ∧
    getEntryHandler "1" (deleteEntryHandler "1" ⟨[⟨1, "t", "n", "p"⟩], 2⟩).store =
      ⟨404, none, (deleteEntryHandler "1" ⟨[⟨1, "t", "n", "p"⟩], 2⟩).store, 1⟩ :=
  delete_then_get_404 "1" ⟨[⟨1, "t", "n", "p"⟩], 2⟩ ⟨1, "t", "n", "p"⟩
    (by decide) (by decide) (by decide)

/-- C8: the update operation only ever rewrites the three text fields of the
rows matching the path id: any `entryId` in the JSON body is ignored (the
handler never reads it), the multiset of ids is unchanged (no row's id ever
changes, positions included), every row with a different id is untouched, and
the serial sequence is untouched. -/
theorem update_frame_effect (s : String) (b : ReqBody) (st : Store) :
    (∀ x : Option Nat, putEntryHandler s { b with entryId := x } st = putEntryHandler s b st) ∧
    (putEntryHandler s b st).store.rows.map (fun e => e.entryId) =
      st.rows.map (fun e => e.entryId) ∧
    (putEntryHandler s b st).store.rows.filter
        (fun r => !((r.entryId : Int) == entryIdInt s)) =
      st.rows.filter (fun r => !((r.entryId : Int) == entryIdInt s)) ∧
    (putEntryHandler s b st).store.nextId = st.nextId := by
  refine ⟨fun x => rfl, ?_⟩
  by_cases hgate : (jsNumberIsNaNOnString s || !jsIsInteger (jsToNumber s) ||
      jsLtOne (jsToNumber s)) = true
  · rw [putEntryHandler, if_pos hgate]
    exact ⟨rfl, rfl, rfl⟩
  · have hgate2 : (jsNumberIsNaNOnString s || !jsIsInteger (jsToNumber s) ||
        jsLtOne (jsToNumber s)) = false := by simpa using hgate
    by_cases hb : (falsy b.title || falsy b.notes || falsy b.photoUrl) = true
    · rw [putEntryHandler, if_neg (by simp [hgate2]), if_pos hb]
      exact ⟨rfl, rfl, rfl⟩
    · have hb2 : (falsy b.title || falsy b.notes || falsy b.photoUrl) = false := by
        simpa using hb
      have hstore : (putEntryHandler s b st).store =
          ⟨st.rows.map (fun e =>
            if (e.entryId : Int) == entryIdInt s then
              { e with
                title := b.title.getD ""
                notes := b.notes.getD ""
                photoUrl := b.photoUrl.getD "" } else e), st.nextId⟩ := by
        rw [putEntryHandler, if_neg (by simp [hgate2]), if_neg (by simp [hb2])]
        simp only [updateReturning]
        cases ((st.rows.filter (fun e => ((e.entryId : Int) == entryIdInt s))).map
          (fun e =>
            { e with
              title := b.title.getD ""
              notes := b.notes.getD ""
              photoUrl := b.photoUrl.getD "" })).head? <;> rfl
      rw [hstore]
      refine ⟨?_, ?_, rfl⟩
      · exact map_entryId_of_preserve _
          (fun e => by
            by_cases hqe : ((e.entryId : Int) == entryIdInt s) = true
            · rw [if_pos hqe]
            · rw [if_neg hqe]) st.rows
      · rw [filter_map_preserve _ _
          (fun e => by
            by_cases hqe : ((e.entryId : Int) == entryIdInt s) = true
            · simp only [if_pos hqe]
            · simp only [if_neg hqe]) st.rows]
        exact map_id_on_filter _ _
          (fun e he => by
            have : ((e.entryId : Int) == entryIdInt s) = false := by
              cases hq : ((e.entryId : Int) == entryIdInt s)
              · rfl
              · rw [hq] at he; cases he
            rw [if_neg (by simp [this])]) st.rows

/-- C9: on every form submit the client fires the update call exactly when an
existing identifier is present in the route (and the create call otherwise,
with the body merged from the loaded entry and the form fields), and then
navigates to the list view `/` unconditionally — the outcome of the
create/update request is not an input of the navigation, and no failure of
that request is surfaced in the form UI. -/
theorem submit_navigates_unconditionally (routeParam : Option String)
    (loaded : Option ClientEntry) (t n p : String) :
    (handleSubmit routeParam loaded t n p).navigatedTo = "/" ∧
    (handleSubmit routeParam loaded t n p).errorSurfaced = false ∧
    (handleSubmit routeParam loaded t n p).call =
      (if isEditingParam routeParam then
        ApiCall.updateCall (routeParam.getD "") ⟨loaded.bind (fun e => e.entryId), t, n, p⟩
      else ApiCall.createCall ⟨none, t, n, p⟩) := by
  cases h : isEditingParam routeParam <;> simp [handleSubmit, h]

end CodeJournal
